import Mathlib

/-!
Shallow embedding of the wtview backend (src-tauri): a Tauri desktop app
managing git worktrees.  The Rust code talks to the outside world through
three channels: the filesystem (path existence checks), the libgit2
binding (`git2::Repository` and its queries), and spawned `git` processes.
We model each channel as a field of an explicit environment:

* `FS` carries path existence / directory checks and the outcome of
  `Repository::open` at each path;
* `RepoW` is an opened repository handle, carrying the results of the
  libgit2 queries the code performs on it (`head`, `statuses`,
  `find_reference`, `graph_ahead_behind`, `workdir`, `worktrees`,
  `find_worktree`, `branches`);
* `World` adds the process runner: for a working directory and an
  argument list, `run` yields `none` when spawning fails (Rust's
  `output()?` propagating an IO error) and otherwise the process's
  exit status, stdout and stderr.

Each Rust function then becomes a Lean function of the environment,
mirroring the source's control flow line by line.  Error payloads taken
from git2/IO errors are modelled as fixed strings, since the code never
inspects them.
-/

namespace WTView

/- ===== Data model and environment ===== -/

/-- Mirror of `AppError` in `src/error.rs`; `Git` and `Io` carry the
underlying error rendered as a message string. -/
inductive AppError where
  | Git : String → AppError
  | Io : String → AppError
  | Command : String → AppError
  | InvalidPath : String → AppError
  | NotARepository : String → AppError
  | UncommittedChanges : AppError
  | WorktreeLocked : String → AppError
  | BranchInUse : String → AppError
  | WorktreeNotFound : String → AppError
  | Other : String → AppError
deriving DecidableEq

/-- Mirror of `std::process::Output` as consumed by the code:
`status.success()`, lossy stdout and lossy stderr. -/
structure Output where
  success : Bool
  stdout : String
  stderr : String
deriving DecidableEq

/-- Mirror of the `git2::Status` bitset through the query methods the
code calls on it. -/
structure GStatus where
  index_new : Bool
  index_modified : Bool
  index_deleted : Bool
  index_renamed : Bool
  index_typechange : Bool
  wt_new : Bool
  wt_modified : Bool
  wt_deleted : Bool
  wt_renamed : Bool
  wt_typechange : Bool
  conflicted : Bool
deriving DecidableEq

/-- Mirror of `FileStatus` in `src/commands/git_ops.rs`. -/
structure FileStatus where
  path : String
  status : String
  staged : Bool
deriving DecidableEq

/-- Mirror of `GitStatusResult` in `src/commands/git_ops.rs`.
`ahead`/`behind` are `u32` in Rust; the code only ever stores values
obtained from `usize` counts, so we model them as `Nat`. -/
structure GitStatusResult where
  branch : Option String
  files : List FileStatus
  ahead : Nat
  behind : Nat
deriving DecidableEq

/-- Mirror of `BranchInfo` in `src/commands/branches.rs`. -/
structure BranchInfo where
  name : String
  is_remote : Bool
  is_current : Bool
deriving DecidableEq

/-- Mirror of `WorktreeInfo` in `src/commands/worktree.rs`. -/
structure WorktreeInfo where
  path : String
  branch : Option String
  is_main : Bool
  is_locked : Bool
deriving DecidableEq

/-- A status list entry: `entry.path()` may be absent (non-UTF8), and
`entry.status()` is the flag bitset. -/
structure StatusEntry where
  path : Option String
  status : GStatus
deriving DecidableEq

/-- The HEAD reference as queried by the code: `target()` (the commit id,
modelled as `Nat`) and `shorthand()` (absent on non-UTF8). -/
structure HeadRef where
  target : Option Nat
  shorthand : Option String
deriving DecidableEq

/-- A linked-worktree handle as queried by the code: its path (via
`to_string_lossy`) and lock state. -/
structure WorktreeH where
  path : String
  isLocked : Bool
deriving DecidableEq

/-- An opened `git2::Repository`, described by the outcomes of the
queries the code performs on it.  `Option` results model fallible calls
(`Err`/`None` collapsed to `none` where the code does the same). -/
structure RepoW where
  /-- `repo.head()` composed with `target()`/`shorthand()` queries. -/
  head : Option HeadRef
  /-- `repo.statuses(...)`: `none` when the call errors. -/
  statuses : Option (List StatusEntry)
  /-- `repo.find_reference(name)` composed with `target()`: outer `none`
  when the reference is not found, inner value the reference's target. -/
  findReference : String → Option (Option Nat)
  /-- `repo.graph_ahead_behind(local, upstream)`. -/
  graphAheadBehind : Nat → Nat → Option (Nat × Nat)
  /-- `repo.workdir()`: `none` for a bare repository. -/
  workdir : Option String
  /-- `repo.worktrees()`: `none` when the call errors; entries are the
  worktree names, `none` for a non-UTF8 name (skipped by `flatten()`). -/
  worktreeNames : Option (List (Option String))
  /-- `repo.find_worktree(name)`: `none` when the lookup fails. -/
  findWorktree : String → Option WorktreeH
  /-- `repo.branches(None)`: outer `none` when the call errors; an entry
  is `none` when the item or its `name()` errors (aborting the loop),
  otherwise the branch name as returned by `name()` (inner `none` for a
  non-UTF8 name) paired with whether the branch type is `Remote`. -/
  branchItems : Option (List (Option (Option String × Bool)))

/-- The filesystem / libgit2 opening channel: `Path::exists`,
`Path::is_dir`, and `Repository::open` (`none` when opening fails). -/
structure FS where
  pathExists : String → Bool
  isDir : String → Bool
  openRepo : String → Option RepoW

/-- The full environment: filesystem plus the process runner.
`run cwd args` is the outcome of `Command::new("git")` with working
directory `cwd` and arguments `args`; `none` models a spawn failure. -/
structure World where
  fs : FS
  run : String → List String → Option Output

/-- Mirror of `str::contains` for the fixed pattern check in
`add_worktree`. -/
def strContains (s pat : String) : Bool :=
  decide (pat.toList <:+: s.toList)

/-- Mirror of `validate_worktree_path` (operations.rs:9): path must
exist and be a directory. -/
def validate_worktree_path (fs : FS) (worktree_path : String) :
    Except AppError Unit :=
  if !fs.pathExists worktree_path then
    .error (.InvalidPath ("Worktree path does not exist: " ++ worktree_path))
  else if !fs.isDir worktree_path then
    .error (.InvalidPath ("Worktree path is not a directory: " ++ worktree_path))
  else
    .ok ()

/-- Mirror of `fetch` (operations.rs:26): validate the path, run
`git fetch --all`, return stdout on success and `Command stderr` on a
non-zero exit. -/
def fetch (w : World) (worktree_path : String) : Except AppError String :=
  match validate_worktree_path w.fs worktree_path with
  | .error e => .error e
  | .ok _ =>
  match w.run worktree_path ["fetch", "--all"] with
  | none => .error (.Io "io error")
  | some out =>
    if !out.success then .error (.Command out.stderr)
    else .ok out.stdout

/-- Mirror of `pull` (operations.rs:43). -/
def pull (w : World) (worktree_path : String) : Except AppError String :=
  match validate_worktree_path w.fs worktree_path with
  | .error e => .error e
  | .ok _ =>
  match w.run worktree_path ["pull"] with
  | none => .error (.Io "io error")
  | some out =>
    if !out.success then .error (.Command out.stderr)
    else .ok out.stdout

/-- Mirror of `push` (operations.rs:60). -/
def push (w : World) (worktree_path : String) : Except AppError String :=
  match validate_worktree_path w.fs worktree_path with
  | .error e => .error e
  | .ok _ =>
  match w.run worktree_path ["push"] with
  | none => .error (.Io "io error")
  | some out =>
    if !out.success then .error (.Command out.stderr)
    else .ok out.stdout

/-- Mirror of the "Handle staged (index) changes" segment of the `status`
loop (operations.rs:94-125): the first matching index flag pushes one
entry with `staged = true`. -/
def indexFiles (path : String) (s : GStatus) : List FileStatus :=
  if s.index_new then [⟨path, "added", true⟩]
  else if s.index_modified then [⟨path, "modified", true⟩]
  else if s.index_deleted then [⟨path, "deleted", true⟩]
  else if s.index_renamed then [⟨path, "renamed", true⟩]
  else if s.index_typechange then [⟨path, "typechange", true⟩]
  else []

/-- Mirror of the "Handle unstaged (worktree) changes" segment of the
`status` loop (operations.rs:127-158): the first matching worktree flag
pushes one entry with `staged = false`. -/
def wtFiles (path : String) (s : GStatus) : List FileStatus :=
  if s.wt_new then [⟨path, "untracked", false⟩]
  else if s.wt_modified then [⟨path, "modified", false⟩]
  else if s.wt_deleted then [⟨path, "deleted", false⟩]
  else if s.wt_renamed then [⟨path, "renamed", false⟩]
  else if s.wt_typechange then [⟨path, "typechange", false⟩]
  else []

/-- Mirror of the "Handle conflicted files" segment of the `status` loop
(operations.rs:160-167). -/
def conflictedFiles (path : String) (s : GStatus) : List FileStatus :=
  if s.conflicted then [⟨path, "conflicted", false⟩] else []

/-- The file entries one status-list entry contributes, in push order:
the three segments of the loop body (operations.rs:90-168). -/
def statusEntryFiles (path : String) (s : GStatus) : List FileStatus :=
  indexFiles path s ++ wtFiles path s ++ conflictedFiles path s

/-- Mirror of `get_ahead_behind` (operations.rs:181): resolve HEAD, take
its target and shorthand, look up `refs/remotes/origin/<shorthand>`,
take its target, and walk the graph; `none` at any step gives `none`. -/
def get_ahead_behind (repo : RepoW) : Option (Nat × Nat) :=
  match repo.head with
  | none => none
  | some head =>
    match head.target with
    | none => none
    | some local_oid =>
      match head.shorthand with
      | none => none
      | some branch_name =>
        let upstream_name := "origin/" ++ branch_name
        match repo.findReference ("refs/remotes/" ++ upstream_name) with
        | none => none
        | some upstream_ref =>
          match upstream_ref with
          | none => none
          | some upstream_oid =>
            repo.graphAheadBehind local_oid upstream_oid

/-- Mirror of `status` (operations.rs:77): open the repository, read the
HEAD shorthand, translate each status entry via `statusEntryFiles`, and
attach ahead/behind counts defaulting to `(0, 0)`. -/
def status (fs : FS) (worktree_path : String) :
    Except AppError GitStatusResult :=
  match fs.openRepo worktree_path with
  | none => .error (.Git "failed to open repository")
  | some repo =>
    let branch := repo.head.bind HeadRef.shorthand
    match repo.statuses with
    | none => .error (.Git "failed to read statuses")
    | some entries =>
      let files := entries.flatMap
        (fun e => statusEntryFiles (e.path.getD "") e.status)
      let ab := (get_ahead_behind repo).getD (0, 0)
      .ok { branch := branch, files := files, ahead := ab.1, behind := ab.2 }

/-- Mirror of `commit` (operations.rs:195). -/
def commit (w : World) (worktree_path message : String) :
    Except AppError String :=
  match validate_worktree_path w.fs worktree_path with
  | .error e => .error e
  | .ok _ =>
  match w.run worktree_path ["commit", "-m", message] with
  | none => .error (.Io "io error")
  | some out =>
    if !out.success then .error (.Command out.stderr)
    else .ok out.stdout

/-- Mirror of `stage` (operations.rs:212). -/
def stage (w : World) (worktree_path file_path : String) :
    Except AppError Unit :=
  match validate_worktree_path w.fs worktree_path with
  | .error e => .error e
  | .ok _ =>
  match w.run worktree_path ["add", file_path] with
  | none => .error (.Io "io error")
  | some out =>
    if !out.success then .error (.Command out.stderr)
    else .ok ()

/-- Mirror of `unstage` (operations.rs:228). -/
def unstage (w : World) (worktree_path file_path : String) :
    Except AppError Unit :=
  match validate_worktree_path w.fs worktree_path with
  | .error e => .error e
  | .ok _ =>
  match w.run worktree_path ["restore", "--staged", file_path] with
  | none => .error (.Io "io error")
  | some out =>
    if !out.success then .error (.Command out.stderr)
    else .ok ()

/-- Mirror of the `for branch_result in repo.branches(None)?` loop of
`list_branches` (operations.rs:251-263): a `none` item (an erroring
iterator step or `name()` call) aborts the whole loop; an item with no
name is skipped; otherwise a `BranchInfo` is produced with `is_current`
true exactly when the branch is local and its name equals the current
branch shorthand. -/
def collectBranches (current : Option String) :
    List (Option (Option String × Bool)) → Option (List BranchInfo)
  | [] => some []
  | none :: _ => none
  | some (name?, isRemote) :: rest =>
    match name? with
    | some name =>
      let is_current := !isRemote && (some name == current)
      (collectBranches current rest).map
        (fun tail => ⟨name, isRemote, is_current⟩ :: tail)
    | none => collectBranches current rest

/-- Mirror of `list_branches` (operations.rs:244): open the repository,
read the current branch shorthand, and fold the branch iterator. -/
def list_branches (fs : FS) (repo_path : String) :
    Except AppError (List BranchInfo) :=
  match fs.openRepo repo_path with
  | none => .error (.Git "failed to open repository")
  | some repo =>
    let current := repo.head.bind HeadRef.shorthand
    match repo.branchItems with
    | none => .error (.Git "failed to list branches")
    | some items =>
      match collectBranches current items with
      | none => .error (.Git "branch iteration failed")
      | some bs => .ok bs

/-- Mirror of `checkout` (operations.rs:268). -/
def checkout (w : World) (worktree_path branch : String) :
    Except AppError Unit :=
  match validate_worktree_path w.fs worktree_path with
  | .error e => .error e
  | .ok _ =>
  match w.run worktree_path ["checkout", branch] with
  | none => .error (.Io "io error")
  | some out =>
    if !out.success then .error (.Command out.stderr)
    else .ok ()

/-- Mirror of `validate_repository` (worktree_manager.rs:8): the
existence check comes first (`InvalidPath`), then `Repository::open`
with its error mapped to `NotARepository`. -/
def validate_repository (fs : FS) (repo_path : String) :
    Except AppError RepoW :=
  if !fs.pathExists repo_path then
    .error (.InvalidPath ("Path does not exist: " ++ repo_path))
  else
    match fs.openRepo repo_path with
    | none => .error (.NotARepository repo_path)
    | some repo => .ok repo

/-- Mirror of `has_uncommitted_changes` (worktree_manager.rs:22): open
the repository at the worktree path, read its status list, and report
whether it is non-empty. -/
def has_uncommitted_changes (fs : FS) (worktree_path : String) :
    Except AppError Bool :=
  match fs.openRepo worktree_path with
  | none => .error (.Git "failed to open repository")
  | some repo =>
    match repo.statuses with
    | none => .error (.Git "failed to read statuses")
    | some entries => .ok (!entries.isEmpty)

/-- The branch recorded for a linked worktree in `list_worktrees`
(worktree_manager.rs:58-65): open a repository at the worktree's path
and take its HEAD shorthand; `None` when opening fails. -/
def worktreeBranch (fs : FS) (path : String) : Option String :=
  match fs.openRepo path with
  | some wt_repo => wt_repo.head.bind HeadRef.shorthand
  | none => none

/-- Mirror of `list_worktrees` (worktree_manager.rs:33): validate the
repository, emit the main worktree first (its working directory, HEAD
shorthand, `is_main`, never locked), then one entry per discoverable
linked worktree. -/
def list_worktrees (fs : FS) (repo_path : String) :
    Except AppError (List WorktreeInfo) :=
  match validate_repository fs repo_path with
  | .error e => .error e
  | .ok repo =>
  match repo.workdir with
  | none => .error (.InvalidPath "Repository has no working directory")
  | some workdir =>
    let main_branch := repo.head.bind HeadRef.shorthand
    let mainInfo : WorktreeInfo :=
      { path := workdir, branch := main_branch,
        is_main := true, is_locked := false }
    match repo.worktreeNames with
    | none => .error (.Git "failed to list worktrees")
    | some names =>
      let linked := (names.filterMap id).filterMap
        (fun name => (repo.findWorktree name).map
          (fun wt =>
            { path := wt.path, branch := worktreeBranch fs wt.path,
              is_main := false, is_locked := wt.isLocked : WorktreeInfo }))
      .ok (mainInfo :: linked)

/-- Mirror of `add_worktree` (worktree_manager.rs:79): validate the
repository, run `git worktree add` (with `-b branch path` when creating
a branch, else `path branch`), and on failure map a stderr containing
"already checked out" to `BranchInUse` and anything else to `Command`. -/
def add_worktree (w : World) (repo_path worktree_path branch : String)
    (create_branch : Bool) : Except AppError Unit :=
  match validate_repository w.fs repo_path with
  | .error e => .error e
  | .ok _ =>
  let args := ["worktree", "add"] ++
    (if create_branch then ["-b", branch, worktree_path]
     else [worktree_path, branch])
  match w.run repo_path args with
  | none => .error (.Io "io error")
  | some out =>
    if !out.success then
      if strContains out.stderr "already checked out" then
        .error (.BranchInUse branch)
      else
        .error (.Command out.stderr)
    else .ok ()

/-- The known-worktree check of `remove_worktree`
(worktree_manager.rs:120-128): some discoverable linked worktree has
exactly the given path. -/
def worktreeKnown (repo : RepoW) (names : List (Option String))
    (worktree_path : String) : Bool :=
  (names.filterMap id).any
    (fun name =>
      match repo.findWorktree name with
      | some wt => wt.path == worktree_path
      | none => false)

/-- The final `git worktree remove` invocation of `remove_worktree`
(worktree_manager.rs:141-158), reached once the checks pass. -/
def removeCommand (w : World) (repo_path worktree_path : String)
    (force : Bool) : Except AppError Unit :=
  let args := ["worktree", "remove"] ++
    (if force then ["--force"] else []) ++ [worktree_path]
  match w.run repo_path args with
  | none => .error (.Io "io error")
  | some out =>
    if !out.success then .error (.Command out.stderr)
    else .ok ()

/-- Mirror of `remove_worktree` (worktree_manager.rs:115): validate the
repository, fail with `WorktreeNotFound` when the path is not a known
linked worktree, then (unless forcing) fail with `UncommittedChanges`
when the worktree is dirty, and finally run `git worktree remove`
(adding `--force` when forcing). -/
def remove_worktree (w : World) (repo_path worktree_path : String)
    (force : Bool) : Except AppError Unit :=
  match validate_repository w.fs repo_path with
  | .error e => .error e
  | .ok repo =>
  match repo.worktreeNames with
  | none => .error (.Git "failed to list worktrees")
  | some names =>
    if !worktreeKnown repo names worktree_path then
      .error (.WorktreeNotFound worktree_path)
    else if !force then
      match has_uncommitted_changes w.fs worktree_path with
      | .error e => .error e
      | .ok true => .error AppError.UncommittedChanges
      | .ok false => removeCommand w repo_path worktree_path force
    else
      removeCommand w repo_path worktree_path force

/-- Mirror of `lock_worktree` (worktree_manager.rs:161): validate the
repository and run `git worktree lock [--reason r] path`. -/
def lock_worktree (w : World) (repo_path worktree_path : String)
    (reason : Option String) : Except AppError Unit :=
  match validate_repository w.fs repo_path with
  | .error e => .error e
  | .ok _ =>
  let args := ["worktree", "lock"] ++
    (match reason with
     | some r => ["--reason", r]
     | none => []) ++ [worktree_path]
  match w.run repo_path args with
  | none => .error (.Io "io error")
  | some out =>
    if !out.success then .error (.Command out.stderr)
    else .ok ()

/-- Mirror of `unlock_worktree` (worktree_manager.rs:184). -/
def unlock_worktree (w : World) (repo_path worktree_path : String) :
    Except AppError Unit :=
  match validate_repository w.fs repo_path with
  | .error e => .error e
  | .ok _ =>
  match w.run repo_path ["worktree", "unlock", worktree_path] with
  | none => .error (.Io "io error")
  | some out =>
    if !out.success then .error (.Command out.stderr)
    else .ok ()

/-- Mirror of the `validate_repo` command (repository.rs:68): `Ok(true)`
on success, `Ok(false)` on `NotARepository`, and any other error
propagated. -/
def validate_repo (fs : FS) (path : String) : Except AppError Bool :=
  match validate_repository fs path with
  | .ok _ => .ok true
  | .error (.NotARepository _) => .ok false
  | .error e => .error e

/-- The staged (index) label the claim assigns to a bitset: first match
in order new, modified, deleted, renamed, typechange. -/
def indexLabelSpec (s : GStatus) : Option String :=
  if s.index_new then some "added"
  else if s.index_modified then some "modified"
  else if s.index_deleted then some "deleted"
  else if s.index_renamed then some "renamed"
  else if s.index_typechange then some "typechange"
  else none

/-- The unstaged (worktree) label the claim assigns to a bitset. -/
def wtLabelSpec (s : GStatus) : Option String :=
  if s.wt_new then some "untracked"
  else if s.wt_modified then some "modified"
  else if s.wt_deleted then some "deleted"
  else if s.wt_renamed then some "renamed"
  else if s.wt_typechange then some "typechange"
  else none

/-- No upstream is configured for the current branch, in the three
forms the claim lists: HEAD unresolvable, no remote-tracking reference
`refs/remotes/origin/<shorthand>`, or the graph walk failing. -/
def noUpstream (repo : RepoW) : Prop :=
  repo.head = none
  ∨ (∃ h b, repo.head = some h ∧ h.shorthand = some b ∧
      repo.findReference ("refs/remotes/origin/" ++ b) = none)
  ∨ (∃ h oid b uoid, repo.head = some h ∧ h.target = some oid ∧
      h.shorthand = some b ∧
      repo.findReference ("refs/remotes/origin/" ++ b) = some (some uoid) ∧
      repo.graphAheadBehind oid uoid = none)

/-- Sample repository with an unresolvable HEAD. -/
def sampleRepoNoHead : RepoW :=
  { head := none, statuses := some [],
    findReference := fun _ => none,
    graphAheadBehind := fun _ _ => none,
    workdir := some "/r", worktreeNames := some [],
    findWorktree := fun _ => none, branchItems := some [] }

/-- Sample filesystem where every path opens `sampleRepoNoHead`. -/
def sampleFS1 : FS :=
  { pathExists := fun _ => true, isDir := fun _ => true,
    openRepo := fun _ => some sampleRepoNoHead }

/-- Sample filesystem whose paths all exist but open no repository. -/
def sampleFSNoRepo : FS :=
  { pathExists := fun _ => true, isDir := fun _ => true,
    openRepo := fun _ => none }

/-- Sample repository whose branch list holds a local and a remote
branch, both named exactly like the HEAD shorthand. -/
def sampleRepoBranches : RepoW :=
  { head := some ⟨some 1, some "main"⟩, statuses := some [],
    findReference := fun _ => none,
    graphAheadBehind := fun _ _ => none,
    workdir := some "/r", worktreeNames := some [],
    findWorktree := fun _ => none,
    branchItems := some [some (some "main", false), some (some "main", true)] }

/-- Sample filesystem opening `sampleRepoBranches` everywhere. -/
def sampleFSBranches : FS :=
  { pathExists := fun _ => true, isDir := fun _ => true,
    openRepo := fun _ => some sampleRepoBranches }

/-- Sample repository with one discoverable linked worktree named
"wt1" (locked) and one undecodable worktree name. -/
def sampleWorktreeRepo : RepoW :=
  { head := some ⟨some 1, some "main"⟩, statuses := some [],
    findReference := fun _ => none,
    graphAheadBehind := fun _ _ => none,
    workdir := some "/main", worktreeNames := some [some "wt1", none],
    findWorktree := fun name =>
      if name == "wt1" then some ⟨"/wts/wt1", true⟩ else none,
    branchItems := some [] }

/-- Sample filesystem for the worktree-listing scenario: the linked
worktree path opens `sampleRepoBranches` (HEAD shorthand "main"), every
other path opens `sampleWorktreeRepo`. -/
def sampleFSWt : FS :=
  { pathExists := fun _ => true, isDir := fun _ => true,
    openRepo := fun p =>
      if p == "/wts/wt1" then some sampleRepoBranches
      else some sampleWorktreeRepo }

/-- Sample environment whose every git invocation fails with a stderr
reporting the branch as already checked out. -/
def sampleWorldInUse : World :=
  { fs := sampleFS1,
    run := fun _ _ =>
      some ⟨false, "", "fatal: 'b' is already checked out at '/x'"⟩ }

/-- Sample environment whose every git invocation succeeds with stdout
"out". -/
def sampleWorldOk : World :=
  { fs := sampleFS1, run := fun _ _ => some ⟨true, "out", ""⟩ }

/-- Sample repository with one known linked worktree at "/wts/wt1" and
an empty status list everywhere. -/
def sampleRmRepo : RepoW :=
  { head := none, statuses := some [],
    findReference := fun _ => none,
    graphAheadBehind := fun _ _ => none,
    workdir := some "/main", worktreeNames := some [some "wt1"],
    findWorktree := fun name =>
      if name == "wt1" then some ⟨"/wts/wt1", false⟩ else none,
    branchItems := some [] }

/-- Sample environment for worktree removal: all repositories open to
`sampleRmRepo` and every git invocation succeeds. -/
def sampleWorldRm : World :=
  { fs := { pathExists := fun _ => true, isDir := fun _ => true,
            openRepo := fun _ => some sampleRmRepo },
    run := fun _ _ => some ⟨true, "", ""⟩ }

/- ===== Helper lemmas ===== -/

theorem indexFiles_eq (path : String) (s : GStatus) :
    indexFiles path s =
      (indexLabelSpec s).elim [] (fun l => [⟨path, l, true⟩]) := by
  obtain ⟨a, b, c, d, e, f, g, h, i, j, k⟩ := s
  cases a <;> cases b <;> cases c <;> cases d <;> cases e <;> rfl

theorem wtFiles_eq (path : String) (s : GStatus) :
    wtFiles path s =
      (wtLabelSpec s).elim [] (fun l => [⟨path, l, false⟩]) := by
  obtain ⟨a, b, c, d, e, f, g, h, i, j, k⟩ := s
  cases f <;> cases g <;> cases h <;> cases i <;> cases j <;> rfl

theorem indexLabelSpec_cases (s : GStatus) (l : String)
    (h : indexLabelSpec s = some l) :
    l = "added" ∨ l = "modified" ∨ l = "deleted" ∨ l = "renamed" ∨
      l = "typechange" := by
  obtain ⟨a, b, c, d, e, f, g, u, i, j, k⟩ := s
  unfold indexLabelSpec at h
  cases a <;> cases b <;> cases c <;> cases d <;> cases e <;> simp_all

theorem wtLabelSpec_cases (s : GStatus) (l : String)
    (h : wtLabelSpec s = some l) :
    l = "untracked" ∨ l = "modified" ∨ l = "deleted" ∨ l = "renamed" ∨
      l = "typechange" := by
  obtain ⟨a, b, c, d, e, f, g, u, i, j, k⟩ := s
  unfold wtLabelSpec at h
  cases f <;> cases g <;> cases u <;> cases i <;> cases j <;> simp_all

theorem statusEntryFiles_props (path : String) (s : GStatus)
    (f : FileStatus) (hf : f ∈ statusEntryFiles path s) :
    (f.staged = true →
      (f.status = "added" ∨ f.status = "modified" ∨ f.status = "deleted" ∨
        f.status = "renamed" ∨ f.status = "typechange"))
    ∧ (f.status = "untracked" → f.staged = false)
    ∧ (f.status = "conflicted" → f.staged = false)
    ∧ (f.status = "added" → f.staged = true) := by
  rw [statusEntryFiles, List.mem_append, List.mem_append] at hf
  rcases hf with (hf | hf) | hf
  · rw [indexFiles_eq] at hf
    rcases hl : indexLabelSpec s with _ | l <;> rw [hl] at hf
    · simp at hf
    · simp at hf
      subst hf
      rcases indexLabelSpec_cases s l hl with h | h | h | h | h <;>
        subst h <;> refine ⟨fun _ => ?_, by simp, by simp, by simp⟩ <;> simp
  · rw [wtFiles_eq] at hf
    rcases hl : wtLabelSpec s with _ | l <;> rw [hl] at hf
    · simp at hf
    · simp at hf
      subst hf
      rcases wtLabelSpec_cases s l hl with h | h | h | h | h <;>
        subst h <;> exact ⟨by simp, by simp, by simp, by simp⟩
  · rw [conflictedFiles] at hf
    split at hf <;> simp at hf
    subst hf
    exact ⟨by simp, by simp, by simp, by simp⟩

theorem status_open_err (fs : FS) (p : String)
    (hrepo : fs.openRepo p = none) :
    status fs p = .error (.Git "failed to open repository") := by
  unfold status; rw [hrepo]

theorem status_statuses_err (fs : FS) (p : String) (repo : RepoW)
    (hrepo : fs.openRepo p = some repo) (hst : repo.statuses = none) :
    status fs p = .error (.Git "failed to read statuses") := by
  unfold status; rw [hrepo]; simp only []; rw [hst]

theorem status_ok_shape (fs : FS) (p : String) (repo : RepoW)
    (entries : List StatusEntry)
    (hrepo : fs.openRepo p = some repo) (hst : repo.statuses = some entries) :
    status fs p = .ok
      { branch := repo.head.bind HeadRef.shorthand,
        files := entries.flatMap
          (fun e => statusEntryFiles (e.path.getD "") e.status),
        ahead := ((get_ahead_behind repo).getD (0, 0)).1,
        behind := ((get_ahead_behind repo).getD (0, 0)).2 } := by
  unfold status; rw [hrepo]; simp only []; rw [hst]

theorem refname_assoc (b : String) :
    ("refs/remotes/" ++ ("origin/" ++ b) : String) =
      "refs/remotes/origin/" ++ b := by
  rw [← String.append_assoc]; rfl

theorem get_ahead_behind_none (repo : RepoW) (h : noUpstream repo) :
    get_ahead_behind repo = none := by
  unfold get_ahead_behind
  rcases h with h | ⟨hd, b, hhead, hsh, href⟩ |
    ⟨hd, oid, b, uoid, hhead, htgt, hsh, href, hgraph⟩
  · simp only [h]
  · rcases htgt : hd.target with _ | oid
    · simp only [hhead, htgt]
    · simp only [hhead, htgt, hsh, refname_assoc, href]
  · simp only [hhead, htgt, hsh, refname_assoc, href, hgraph]

theorem collectBranches_current_not_remote (current : Option String) :
    ∀ (items : List (Option (Option String × Bool)))
      (bs : List BranchInfo),
      collectBranches current items = some bs →
      ∀ b ∈ bs, b.is_current = true → b.is_remote = false := by
  intro items
  induction items with
  | nil =>
    intro bs h b hb
    simp [collectBranches] at h
    subst h
    simp at hb
  | cons item rest ih =>
    intro bs h b hb hcur
    rcases item with _ | ⟨name?, isRemote⟩
    · simp [collectBranches] at h
    rcases name? with _ | name
    · exact ih bs h b hb hcur
    · rw [collectBranches] at h
      rcases hr : collectBranches current rest with _ | tail <;> rw [hr] at h
      · rw [Option.map_none'] at h
        exact Option.noConfusion h
      · simp only [Option.map_some', Option.some.injEq] at h
        subst h
        rcases List.mem_cons.mp hb with hb | hb
        · subst hb
          simp only at hcur
          cases isRemote
          · rfl
          · simp at hcur
        · exact ih tail hr b hb hcur

theorem validate_worktree_path_ok (fs : FS) (p : String)
    (hex : fs.pathExists p = true) (hdir : fs.isDir p = true) :
    validate_worktree_path fs p = .ok () := by
  unfold validate_worktree_path
  rw [hex, hdir]
  rfl

/- ===== Claim theorems ===== -/

/-- Claim C1: whenever no upstream is configured for the current branch
— HEAD unresolvable, no remote-tracking reference
`refs/remotes/origin/<branch shorthand>`, or a failing ahead/behind
graph walk — any result `status` returns carries ahead and behind
counts both equal to zero. -/
theorem status_zero_without_upstream (fs : FS) (p : String)
    (repo : RepoW) (r : GitStatusResult)
    (hrepo : fs.openRepo p = some repo)
    (hok : status fs p = .ok r)
    (hup : noUpstream repo) :
    r.ahead = 0 ∧ r.behind = 0 := by
  rcases hst : repo.statuses with _ | entries
  · rw [status_statuses_err fs p repo hrepo hst] at hok; simp at hok
  rw [status_ok_shape fs p repo entries hrepo hst] at hok
  simp only [Except.ok.injEq] at hok
  subst hok
  rw [get_ahead_behind_none repo hup]
  exact ⟨rfl, rfl⟩

/-- Concrete instance of claim C1 at a repository whose HEAD cannot be
resolved. -/
theorem status_zero_without_upstream_witness :
    sampleFS1.openRepo "/r" = some sampleRepoNoHead ∧
    status sampleFS1 "/r" = .ok ⟨none, [], 0, 0⟩ ∧
    noUpstream sampleRepoNoHead ∧
    ((⟨none, [], 0, 0⟩ : GitStatusResult).ahead = 0 ∧
      (⟨none, [], 0, 0⟩ : GitStatusResult).behind = 0) :=
  ⟨rfl, rfl, Or.inl rfl,
    status_zero_without_upstream sampleFS1 "/r" sampleRepoNoHead
      ⟨none, [], 0, 0⟩ rfl rfl (Or.inl rfl)⟩

/-- Claim C2: the `status` loop translates each status-flag bitset into
at most one staged entry labelled by the first matching index flag
(added, modified, deleted, renamed, typechange), then at most one
unstaged entry labelled by the first matching worktree flag (untracked,
modified, deleted, renamed, typechange), then one conflicted entry with
`staged = false`; hence between zero and three file entries per
bitset. -/
theorem statusEntryFiles_spec (path : String) (s : GStatus) :
    statusEntryFiles path s =
      ((indexLabelSpec s).elim [] (fun l => [⟨path, l, true⟩]))
      ++ ((wtLabelSpec s).elim [] (fun l => [⟨path, l, false⟩]))
      ++ (if s.conflicted then [⟨path, "conflicted", false⟩] else [])
    ∧ (statusEntryFiles path s).length ≤ 3 := by
  constructor
  · rw [statusEntryFiles, indexFiles_eq, wtFiles_eq, conflictedFiles]
  · rw [statusEntryFiles]
    simp only [List.length_append]
    have h1 : (indexFiles path s).length ≤ 1 := by
      rw [indexFiles_eq]; cases indexLabelSpec s <;> simp
    have h2 : (wtFiles path s).length ≤ 1 := by
      rw [wtFiles_eq]; cases wtLabelSpec s <;> simp
    have h3 : (conflictedFiles path s).length ≤ 1 := by
      rw [conflictedFiles]; split <;> simp
    omega

/-- Claim C3: `remove_worktree` with `force = false` fails with
`WorktreeNotFound` when the path is not a known linked worktree (for
every force flag, so the not-found check precedes the cleanliness
check), fails with `UncommittedChanges` when the worktree is known and
its status list is non-empty, and only reaches the `git worktree
remove` invocation when the worktree is known and clean; with
`force = true` the cleanliness check is skipped entirely. -/
theorem remove_worktree_checks (w : World) (rp wtp : String)
    (repo : RepoW) (names : List (Option String))
    (hval : validate_repository w.fs rp = .ok repo)
    (hn : repo.worktreeNames = some names) :
    (worktreeKnown repo names wtp = false →
      ∀ force, remove_worktree w rp wtp force =
        .error (.WorktreeNotFound wtp))
    ∧ (worktreeKnown repo names wtp = true →
      ∀ wrepo es, w.fs.openRepo wtp = some wrepo →
        wrepo.statuses = some es →
        (es ≠ [] → remove_worktree w rp wtp false =
          .error .UncommittedChanges)
        ∧ (es = [] → remove_worktree w rp wtp false =
          removeCommand w rp wtp false))
    ∧ (worktreeKnown repo names wtp = true →
      remove_worktree w rp wtp true = removeCommand w rp wtp true) := by
  refine ⟨?_, ?_, ?_⟩
  · intro hk force
    unfold remove_worktree
    simp [hval, hn, hk]
  · intro hk wrepo es hopen hst
    have hchg : has_uncommitted_changes w.fs wtp = .ok (!es.isEmpty) := by
      unfold has_uncommitted_changes
      simp only [hopen, hst]
    constructor
    · intro hne
      have hne2 : es.isEmpty = false := by
        cases es
        · simp at hne
        · rfl
      unfold remove_worktree
      rw [hne2] at hchg
      simp [hval, hn, hk, hchg]
    · intro he
      subst he
      unfold remove_worktree
      simp [hval, hn, hk, hchg]
  · intro hk
    unfold remove_worktree
    simp [hval, hn, hk]

/-- Concrete instances of claim C3: an unknown worktree path is
rejected with `WorktreeNotFound`, and a known clean worktree proceeds
to the removal command. -/
theorem remove_worktree_checks_witness :
    remove_worktree sampleWorldRm "/main" "/nowhere" false =
      .error (.WorktreeNotFound "/nowhere") ∧
    remove_worktree sampleWorldRm "/main" "/wts/wt1" false =
      removeCommand sampleWorldRm "/main" "/wts/wt1" false := by
  have h := remove_worktree_checks sampleWorldRm "/main" "/nowhere"
    sampleRmRepo [some "wt1"] rfl rfl
  have h2 := remove_worktree_checks sampleWorldRm "/main" "/wts/wt1"
    sampleRmRepo [some "wt1"] rfl rfl
  exact ⟨h.1 rfl false,
    ((h2.2.1 rfl sampleRmRepo [] rfl rfl).2 rfl)⟩

/-- Claim C4: `validate_repository` returns `InvalidPath` exactly when
the path does not exist, `NotARepository` exactly when the path exists
but cannot be opened, and otherwise the opened repository; a
nonexistent path is reported as `InvalidPath`, never as
`NotARepository`. -/
theorem validate_repository_spec (fs : FS) (path : String) :
    ((∃ m, validate_repository fs path = .error (.InvalidPath m)) ↔
      fs.pathExists path = false)
    ∧ (validate_repository fs path = .error (.NotARepository path) ↔
      (fs.pathExists path = true ∧ fs.openRepo path = none))
    ∧ (∀ r, validate_repository fs path = .ok r ↔
      (fs.pathExists path = true ∧ fs.openRepo path = some r))
    ∧ (fs.pathExists path = false →
      validate_repository fs path =
        .error (.InvalidPath ("Path does not exist: " ++ path))) := by
  unfold validate_repository
  cases hp : fs.pathExists path <;> cases ho : fs.openRepo path <;>
    simp [hp, ho]

/-- Concrete instance of claim C4 at an existing path that is not a
repository. -/
theorem validate_repository_spec_witness :
    validate_repository sampleFSNoRepo "/p" = .error (.NotARepository "/p") :=
  ((validate_repository_spec sampleFSNoRepo "/p").2.1).2 ⟨rfl, rfl⟩

/-- Claim C5: each shelled-out git operation (fetch, pull, push,
commit, stage, unstage, checkout, and the worktree lock) returns `Ok`
— carrying the process stdout for the string-returning operations —
exactly when the spawned process exits successfully, and returns
`Command` with the process stderr on a non-zero exit. -/
theorem shell_wrapper_sync (w : World) (p rp msg fp br : String)
    (reason : Option String) (repo : RepoW)
    (hex : w.fs.pathExists p = true) (hdir : w.fs.isDir p = true)
    (hval : validate_repository w.fs rp = .ok repo) :
    (∀ out, w.run p ["fetch", "--all"] = some out →
      fetch w p = (if out.success then .ok out.stdout
                   else .error (.Command out.stderr)))
    ∧ (∀ out, w.run p ["pull"] = some out →
      pull w p = (if out.success then .ok out.stdout
                  else .error (.Command out.stderr)))
    ∧ (∀ out, w.run p ["push"] = some out →
      push w p = (if out.success then .ok out.stdout
                  else .error (.Command out.stderr)))
    ∧ (∀ out, w.run p ["commit", "-m", msg] = some out →
      commit w p msg = (if out.success then .ok out.stdout
                        else .error (.Command out.stderr)))
    ∧ (∀ out, w.run p ["add", fp] = some out →
      stage w p fp = (if out.success then .ok ()
                      else .error (.Command out.stderr)))
    ∧ (∀ out, w.run p ["restore", "--staged", fp] = some out →
      unstage w p fp = (if out.success then .ok ()
                        else .error (.Command out.stderr)))
    ∧ (∀ out, w.run p ["checkout", br] = some out →
      checkout w p br = (if out.success then .ok ()
                         else .error (.Command out.stderr)))
    ∧ (∀ out, w.run rp (["worktree", "lock"] ++
        (match reason with
         | some r => ["--reason", r]
         | none => []) ++ [p]) = some out →
      lock_worktree w rp p reason =
        (if out.success then .ok ()
         else .error (.Command out.stderr))) := by
  have hv := validate_worktree_path_ok w.fs p hex hdir
  refine ⟨?_, ?_, ?_, ?_, ?_, ?_, ?_, ?_⟩ <;> intro out hrun
  · unfold fetch
    simp only [hv, hrun]
    cases hs : out.success <;> simp [hs]
  · unfold pull
    simp only [hv, hrun]
    cases hs : out.success <;> simp [hs]
  · unfold push
    simp only [hv, hrun]
    cases hs : out.success <;> simp [hs]
  · unfold commit
    simp only [hv, hrun]
    cases hs : out.success <;> simp [hs]
  · unfold stage
    simp only [hv, hrun]
    cases hs : out.success <;> simp [hs]
  · unfold unstage
    simp only [hv, hrun]
    cases hs : out.success <;> simp [hs]
  · unfold checkout
    simp only [hv, hrun]
    cases hs : out.success <;> simp [hs]
  · unfold lock_worktree
    simp only [hval, hrun]
    cases hs : out.success <;> simp [hs]

/-- Concrete instances of claim C5 under an environment whose git
processes all succeed. -/
theorem shell_wrapper_sync_witness :
    fetch sampleWorldOk "/p" = .ok "out" ∧
    stage sampleWorldOk "/p" "f" = .ok () ∧
    lock_worktree sampleWorldOk "/r" "/p" none = .ok () := by
  have h := shell_wrapper_sync sampleWorldOk "/p" "/r" "m" "f" "b" none
    sampleRepoNoHead rfl rfl rfl
  exact ⟨h.1 ⟨true, "out", ""⟩ rfl,
    h.2.2.2.2.1 ⟨true, "out", ""⟩ rfl,
    h.2.2.2.2.2.2.2 ⟨true, "out", ""⟩ rfl⟩

/-- Claim C6: for a valid non-bare repository, `list_worktrees` returns
the main worktree first (`is_main = true`, `is_locked = false`, path
the repository working directory, branch the HEAD shorthand), followed
by one entry per discoverable linked worktree with `is_main = false`,
the worktree lock state, and as branch the HEAD shorthand read from the
worktree (or none when it cannot be resolved). -/
theorem list_worktrees_shape (fs : FS) (p : String) (repo : RepoW)
    (workdir : String) (names : List (Option String))
    (hval : validate_repository fs p = .ok repo)
    (hwd : repo.workdir = some workdir)
    (hn : repo.worktreeNames = some names) :
    list_worktrees fs p = .ok
      ({ path := workdir, branch := repo.head.bind HeadRef.shorthand,
         is_main := true, is_locked := false } ::
        (names.filterMap id).filterMap
          (fun name => (repo.findWorktree name).map
            (fun wt =>
              { path := wt.path, branch := worktreeBranch fs wt.path,
                is_main := false, is_locked := wt.isLocked }))) := by
  unfold list_worktrees
  simp only [hval, hwd, hn]

/-- Concrete instance of claim C6 with one locked linked worktree. -/
theorem list_worktrees_shape_witness :
    validate_repository sampleFSWt "/main" = .ok sampleWorktreeRepo ∧
    list_worktrees sampleFSWt "/main" = .ok
      [⟨"/main", some "main", true, false⟩,
       ⟨"/wts/wt1", some "main", false, true⟩] :=
  ⟨rfl, by
    rw [list_worktrees_shape sampleFSWt "/main" sampleWorktreeRepo "/main"
      [some "wt1", none] rfl rfl rfl]
    rfl⟩

/-- Claim C7: a failed `git worktree add` whose stderr contains
"already checked out" becomes `BranchInUse` with the branch name, any
other failure becomes `Command` with the stderr text, and success gives
`Ok(())`. -/
theorem add_worktree_translation (w : World)
    (rp wtp branch : String) (cb : Bool) (repo : RepoW)
    (hval : validate_repository w.fs rp = .ok repo) :
    ∀ out, w.run rp (["worktree", "add"] ++
        (if cb then ["-b", branch, wtp] else [wtp, branch])) = some out →
      add_worktree w rp wtp branch cb =
        (if out.success then .ok ()
         else if strContains out.stderr "already checked out" then
           .error (.BranchInUse branch)
         else .error (.Command out.stderr)) := by
  intro out hrun
  unfold add_worktree
  simp only [hval, hrun]
  cases hs : out.success <;> simp [hs]

/-- Concrete instance of claim C7 at a failing invocation whose stderr
reports the branch as already checked out. -/
theorem add_worktree_translation_witness :
    add_worktree sampleWorldInUse "/r" "/wt" "b" true =
      .error (.BranchInUse "b") := by
  rw [add_worktree_translation sampleWorldInUse "/r" "/wt" "b" true
    sampleRepoNoHead rfl ⟨false, "", "fatal: 'b' is already checked out at '/x'"⟩ rfl]
  rfl

/-- Claim C8: the `validate_repo` command returns `Ok true` when
validation succeeds, `Ok false` exactly when validation fails with
`NotARepository`, propagates every other validation error, and in
particular maps a nonexistent path to `InvalidPath`, not
`Ok false`. -/
theorem validate_repo_spec (fs : FS) (path : String) :
    (validate_repo fs path = .ok true ↔
      (∃ r, validate_repository fs path = .ok r))
    ∧ (validate_repo fs path = .ok false ↔
      (∃ s, validate_repository fs path = .error (.NotARepository s)))
    ∧ (∀ e, validate_repository fs path = .error e →
        (∀ s, e ≠ .NotARepository s) → validate_repo fs path = .error e)
    ∧ (fs.pathExists path = false →
      validate_repo fs path =
        .error (.InvalidPath ("Path does not exist: " ++ path))) := by
  refine ⟨?_, ?_, ?_, ?_⟩
  · unfold validate_repo
    rcases hv : validate_repository fs path with e | r
    · cases e <;> simp
    · simp
  · unfold validate_repo
    rcases hv : validate_repository fs path with e | r
    · cases e <;> simp
    · simp
  · intro e hv hne
    unfold validate_repo
    rw [hv]
    cases e <;> simp_all
  · intro hp
    unfold validate_repo validate_repository
    rw [hp]
    rfl

/-- Concrete instance of claim C8 at a path that opens as a
repository. -/
theorem validate_repo_spec_witness :
    validate_repo sampleFS1 "/p" = .ok true :=
  ((validate_repo_spec sampleFS1 "/p").1).2 ⟨sampleRepoNoHead, rfl⟩

/-- Claim C9: every `BranchInfo` returned by `list_branches` satisfies
`is_current → ¬is_remote`: a remote branch is never marked current,
even when its name equals the HEAD shorthand. -/
theorem list_branches_current_not_remote (fs : FS) (p : String)
    (bs : List BranchInfo) (hok : list_branches fs p = .ok bs) :
    ∀ b ∈ bs, b.is_current = true → b.is_remote = false := by
  unfold list_branches at hok
  rcases hrepo : fs.openRepo p with _ | repo
  · simp [hrepo] at hok
  rcases hbi : repo.branchItems with _ | items
  · simp [hrepo, hbi] at hok
  rcases hc : collectBranches (repo.head.bind HeadRef.shorthand) items
      with _ | bs2
  · simp [hrepo, hbi, hc] at hok
  simp only [hrepo, hbi, hc, Except.ok.injEq] at hok
  subst hok
  exact collectBranches_current_not_remote _ items bs2 hc

/-- Concrete instance of claim C9 with a remote branch named exactly
like the HEAD shorthand. -/
theorem list_branches_current_not_remote_witness :
    list_branches sampleFSBranches "/r" =
      .ok [⟨"main", false, true⟩, ⟨"main", true, false⟩] ∧
    ∀ b ∈ ([⟨"main", false, true⟩, ⟨"main", true, false⟩] :
        List BranchInfo), b.is_current = true → b.is_remote = false :=
  ⟨rfl,
    list_branches_current_not_remote sampleFSBranches "/r" _ rfl⟩

/-- Claim C10: in every `status` result, a file entry with
`staged = true` is labelled added, modified, deleted, renamed or
typechange; entries labelled untracked or conflicted have
`staged = false`; and added entries have `staged = true` — so the
untracked, added and conflicted labels each occur with one fixed value
of the staged flag. -/
theorem status_label_staged_invariant (fs : FS) (p : String)
    (r : GitStatusResult) (hok : status fs p = .ok r) :
    ∀ f ∈ r.files,
      (f.staged = true →
        (f.status = "added" ∨ f.status = "modified" ∨ f.status = "deleted" ∨
          f.status = "renamed" ∨ f.status = "typechange"))
      ∧ (f.status = "untracked" → f.staged = false)
      ∧ (f.status = "conflicted" → f.staged = false)
      ∧ (f.status = "added" → f.staged = true) := by
  intro f hf
  rcases hrepo : fs.openRepo p with _ | repo
  · rw [status_open_err fs p hrepo] at hok; simp at hok
  rcases hst : repo.statuses with _ | entries
  · rw [status_statuses_err fs p repo hrepo hst] at hok; simp at hok
  rw [status_ok_shape fs p repo entries hrepo hst] at hok
  simp only [Except.ok.injEq] at hok
  subst hok
  simp only [List.mem_flatMap] at hf
  obtain ⟨e, _, hfe⟩ := hf
  exact statusEntryFiles_props _ _ _ hfe

/-- Concrete instance of claim C10 at a repository with an empty status
list. -/
theorem status_label_staged_invariant_witness :
    status sampleFS1 "/r" = .ok ⟨none, [], 0, 0⟩ ∧
    ∀ f ∈ (⟨none, [], 0, 0⟩ : GitStatusResult).files,
      (f.staged = true →
        (f.status = "added" ∨ f.status = "modified" ∨ f.status = "deleted" ∨
          f.status = "renamed" ∨ f.status = "typechange"))
      ∧ (f.status = "untracked" → f.staged = false)
      ∧ (f.status = "conflicted" → f.staged = false)
      ∧ (f.status = "added" → f.staged = true) :=
  ⟨rfl, status_label_staged_invariant sampleFS1 "/r" ⟨none, [], 0, 0⟩ rfl⟩

end WTView
